/-
Verification of the FujiBus host-side client library (fujinet-tools).

This file gives a shallow embedding, in Lean 4, of the pure core of the
Python sources under py/fujinet_tools/:

  * fujibus.py   : SLIP framing, frame extraction, checksum, packet
                   build/parse (functions slip_encode, slip_decode,
                   _extract_frame_from_rx, calc_checksum,
                   parse_fuji_packet, build_fuji_packet);
  * byte_proto.py: little-endian readers read_u8 .. read_u64le;
  * netproto.py  : network response parsers;
  * fileproto.py : file response parsers;
  * clock.py     : clock response parsers;
  * bbc_dfs.py   : Acorn DFS 0.90 catalogue parser;
  * net.py / net_tcp.py : the retry helpers and the streaming read /
                   write loops, modelled as pure functions over the
                   per-attempt outcomes (wall-clock deadlines and the
                   sleep calls are abstracted away; the attempt counter
                   and the backoff recurrence are kept).

Bytes are modelled as Nat (with explicit `&&& 0xFF` masks exactly where
the source masks); byte strings as List Nat; fallible parsers as
Except String; `Optional` results as Option.
-/

import Mathlib

set_option maxRecDepth 10000

/-! ## Generic bit-arithmetic bridge lemmas -/

/-- Masking with `0xFF` is reduction mod 256. -/
theorem and_255_eq_mod (x : Nat) : x &&& 255 = x % 256 := by
  have h := Nat.and_pow_two_sub_one_eq_mod x 8
  norm_num at h
  exact h

/-- Masking with `0xFFFF` is reduction mod 65536. -/
theorem and_65535_eq_mod (x : Nat) : x &&& 65535 = x % 65536 := by
  have h := Nat.and_pow_two_sub_one_eq_mod x 16
  norm_num at h
  exact h

/-- Shifting right by 8 is division by 256. -/
theorem shiftRight8_eq_div (x : Nat) : x >>> 8 = x / 256 := by
  have h := Nat.shiftRight_eq_div_pow x 8
  norm_num at h
  exact h

/-- Bitwise-or of a low byte-group and a disjoint shifted high part is
plain addition. -/
theorem lor_shiftLeft_eq_add {n : Nat} (a b : Nat) (h : a < 2 ^ n) :
    a ||| b <<< n = b * 2 ^ n + a := by
  apply Nat.eq_of_testBit_eq
  intro i
  rw [Nat.testBit_lor, Nat.testBit_shiftLeft]
  rcases lt_or_ge i n with hi | hi
  · have hd : (decide (i ≥ n) && b.testBit (i - n)) = false := by
      simp [Nat.not_le.mpr hi]
    rw [hd, Bool.or_false]
    rw [Nat.testBit_to_div_mod, Nat.testBit_to_div_mod]
    obtain ⟨k, hk⟩ : ∃ k, n = k + 1 + i := ⟨n - i - 1, by omega⟩
    subst hk
    have e1 : b * 2 ^ (k + 1 + i) + a = 2 ^ i * (2 * (b * 2 ^ k)) + a := by
      rw [pow_add, pow_succ]
      ring
    rw [e1, Nat.mul_add_div (Nat.two_pow_pos i), Nat.mul_add_mod]
  · have ha : a.testBit i = false :=
      Nat.testBit_lt_two_pow (lt_of_lt_of_le h (Nat.pow_le_pow_right (by norm_num) hi))
    have hd : (decide (i ≥ n)) = true := by simp [hi]
    rw [ha, Bool.false_or, hd, Bool.true_and]
    rw [Nat.testBit_to_div_mod, Nat.testBit_to_div_mod]
    obtain ⟨k, hk⟩ : ∃ k, i = n + k := ⟨i - n, by omega⟩
    subst hk
    have e1 : (b * 2 ^ n + a) / 2 ^ (n + k) = b / 2 ^ k := by
      rw [pow_add, ← Nat.div_div_eq_div_mul]
      have e2 : (b * 2 ^ n + a) / 2 ^ n = b := by
        rw [mul_comm, Nat.mul_add_div (Nat.two_pow_pos n),
          Nat.div_eq_of_lt h, Nat.add_zero]
      rw [e2]
    rw [e1]
    have e3 : n + k - n = k := by omega
    rw [e3]

/-! ## fujibus.py : constants -/

def SLIP_END : Nat := 0xC0
def SLIP_ESCAPE : Nat := 0xDB
def SLIP_ESC_END : Nat := 0xDC
def SLIP_ESC_ESC : Nat := 0xDD

def HEADER_SIZE : Nat := 6

def FIELD_SIZE_TABLE : List Nat := [0, 1, 1, 1, 1, 2, 2, 4]
def NUM_FIELDS_TABLE : List Nat := [0, 1, 2, 3, 4, 1, 2, 1]

/-! ## fujibus.py : checksum

`calc_checksum` folds the running sum end-around after every byte:
`chk += b; chk = ((chk >> 8) + (chk & 0xFF)) & 0xFFFF`, returning
`chk & 0xFF`. -/

def calc_checksum_step (chk b : Nat) : Nat :=
  (((chk + b) >>> 8) + ((chk + b) &&& 0xFF)) &&& 0xFFFF

def calc_checksum (data : List Nat) : Nat :=
  (data.foldl calc_checksum_step 0) &&& 0xFF

/-! ## fujibus.py : SLIP encode / decode -/

/-- Body of `slip_encode`: the per-byte escaping loop. -/
def slipBody : List Nat → List Nat
  | [] => []
  | b :: rest =>
    (if b = SLIP_END then [SLIP_ESCAPE, SLIP_ESC_END]
     else if b = SLIP_ESCAPE then [SLIP_ESCAPE, SLIP_ESC_ESC]
     else [b]) ++ slipBody rest

def slip_encode (payload : List Nat) : List Nat :=
  SLIP_END :: (slipBody payload ++ [SLIP_END])

/-- The unescaping scan of `slip_decode` over the bytes strictly between
the two frame delimiters.  A trailing lone escape byte is dropped (the
Python loop breaks when the escape has no follower). -/
def slipDecodeBody : List Nat → List Nat
  | [] => []
  | b :: rest =>
    if b = SLIP_ESCAPE then
      match rest with
      | [] => []
      | esc :: rest2 =>
        (if esc = SLIP_ESC_END then SLIP_END
         else if esc = SLIP_ESC_ESC then SLIP_ESCAPE
         else b) :: slipDecodeBody rest2
    else b :: slipDecodeBody rest

def slip_decode (frame : List Nat) : List Nat :=
  match frame with
  | [] => []
  | f :: rest =>
    if f = SLIP_END ∧ (f :: rest).getLast? = some SLIP_END then
      slipDecodeBody rest.dropLast
    else []

/-! ## fujibus.py : incremental frame extraction

`_extract_frame_from_rx` mutates the rx buffer; the model returns the
extracted frame (if any) together with the new buffer contents. -/

def _extract_frame_from_rx (rx : List Nat) : Option (List Nat) × List Nat :=
  match rx.findIdx? (fun b => b == SLIP_END) with
  | none => (none, [])
  | some start =>
    let rx1 := rx.drop start
    match (rx1.drop 1).findIdx? (fun b => b == SLIP_END) with
    | none => (none, rx1)
    | some j => (some (rx1.take (j + 2)), rx1.drop (j + 2))

/-! ## fujibus.py : packet parse / build -/

structure FujiPacket where
  device : Nat
  command : Nat
  length : Nat
  checksum : Nat
  checksum_computed : Nat
  checksum_ok : Bool
  descr : Nat
  params : List Nat
  payload : List Nat
  deriving DecidableEq, Repr

/-- Little-endian accumulation `v |= decoded[offset+i] << (8*i)` for
`i < size`, as in the params loop of `parse_fuji_packet`. -/
def readLE (decoded : List Nat) (offset : Nat) : Nat → Nat
  | 0 => 0
  | size + 1 => decoded.getD offset 0 ||| (readLE decoded (offset + 1) size) <<< 8

/-- The descriptor continuation loop: while the last descriptor byte has
bit 0x80 set, read another byte (bounds-checked), returning the list of
continuation bytes and the new offset.  `fuel` bounds the iteration; the
loop consumes one buffer position per step, so `decoded.length + 1`
steps always suffice. -/
def descrChainRest (decoded : List Nat) : Nat → Nat → Nat → Option (List Nat × Nat)
  | 0, _, _ => none
  | fuel + 1, last, offset =>
    if last &&& 0x80 = 0 then some ([], offset)
    else if decoded.length ≤ offset then none
    else
      let b := decoded.getD offset 0
      match descrChainRest decoded fuel b (offset + 1) with
      | none => none
      | some (bs, off) => some (b :: bs, off)

/-- The inner `for _ in range(field_count)` loop: read `count` fields of
`size` bytes each, bounds-checking `offset + size > len(decoded)` before
every field. -/
def readFields (decoded : List Nat) (size : Nat) : Nat → Nat → Option (List Nat × Nat)
  | 0, offset => some ([], offset)
  | count + 1, offset =>
    if decoded.length < offset + size then none
    else
      match readFields decoded size count (offset + size) with
      | none => none
      | some (ps, off) => some (readLE decoded offset size :: ps, off)

/-- The outer `for dbyte in descr_bytes` loop of `parse_fuji_packet`. -/
def readParams (decoded : List Nat) : List Nat → Nat → Option (List Nat × Nat)
  | [], offset => some ([], offset)
  | d :: ds, offset =>
    let field_desc := d &&& 0x07
    let field_count := NUM_FIELDS_TABLE.getD field_desc 0
    let field_size := FIELD_SIZE_TABLE.getD field_desc 0
    match readFields decoded field_size field_count offset with
    | none => none
    | some (ps, off2) =>
      match readParams decoded ds off2 with
      | none => none
      | some (qs, off3) => some (ps ++ qs, off3)

def parse_fuji_packet (decoded : List Nat) : Option FujiPacket :=
  if decoded.length < HEADER_SIZE then none
  else
    let device := decoded.getD 0 0
    let command := decoded.getD 1 0
    let length := decoded.getD 2 0 ||| (decoded.getD 3 0) <<< 8
    let checksum := decoded.getD 4 0
    let descr := decoded.getD 5 0
    if length ≠ decoded.length then none
    else
      let tmp := decoded.set 4 0
      let computed := calc_checksum tmp
      let checksum_ok := computed == checksum
      match descrChainRest decoded (decoded.length + 1) descr HEADER_SIZE with
      | none => none
      | some (bs, offset) =>
        match readParams decoded (descr :: bs) offset with
        | none => none
        | some (params, offset2) =>
          some { device := device, command := command, length := length,
                 checksum := checksum, checksum_computed := computed,
                 checksum_ok := checksum_ok, descr := descr,
                 params := params, payload := decoded.drop offset2 }

def build_fuji_packet (device command : Nat) (payload : List Nat) : List Nat :=
  let length := HEADER_SIZE + payload.length
  let base := [device &&& 0xFF, command &&& 0xFF, length &&& 0xFF,
               (length >>> 8) &&& 0xFF, 0, 0] ++ payload
  slip_encode (base.set 4 (calc_checksum base))

example : calc_checksum [0, 0, 6, 0, 0, 0] = 6 := by decide

example : parse_fuji_packet [0, 0, 6, 0, 6, 0] =
    some ⟨0, 0, 6, 6, 6, true, 0, [], []⟩ := by decide

example : parse_fuji_packet [0, 0, 6, 0, 5, 0] =
    some ⟨0, 0, 6, 5, 6, false, 0, [], []⟩ := by decide

example : slip_decode (slip_encode [0xC0, 0xDB, 7]) = [0xC0, 0xDB, 7] := by decide

example : build_fuji_packet 0 0 [] = [0xC0, 0, 0, 6, 0, 6, 0, 0xC0] := by decide

example : parse_fuji_packet (slip_decode (build_fuji_packet 0 0 [])) =
    some ⟨0, 0, 6, 6, 6, true, 0, [], []⟩ := by decide

example : parse_fuji_packet (build_fuji_packet 0 0 []) = none := by decide

example :
    _extract_frame_from_rx (slip_encode [1] ++ slip_encode [2]) =
      (some (slip_encode [1]), slip_encode [2]) := by decide

/-! ## byte_proto.py : bounds-checked little-endian readers -/

def read_u8 (b : List Nat) (off : Nat) : Except String (Nat × Nat) :=
  if b.length < off + 1 then .error "read_u8 out of bounds"
  else .ok (b.getD off 0, off + 1)

def read_u16le (b : List Nat) (off : Nat) : Except String (Nat × Nat) :=
  if b.length < off + 2 then .error "read_u16le out of bounds"
  else .ok (b.getD off 0 ||| (b.getD (off + 1) 0) <<< 8, off + 2)

def read_u32le (b : List Nat) (off : Nat) : Except String (Nat × Nat) :=
  if b.length < off + 4 then .error "read_u32le out of bounds"
  else .ok (b.getD off 0 ||| (b.getD (off + 1) 0) <<< 8
            ||| (b.getD (off + 2) 0) <<< 16 ||| (b.getD (off + 3) 0) <<< 24, off + 4)

def read_u64le (b : List Nat) (off : Nat) : Except String (Nat × Nat) :=
  if b.length < off + 8 then .error "read_u64le out of bounds"
  else .ok (readLE b off 8, off + 8)

/-- Strip from the right every byte in `cs` (models `str.rstrip(chars)`,
with latin-1 text kept as raw bytes). -/
def rstripSet (s : List Nat) (cs : List Nat) : List Nat :=
  (s.reverse.dropWhile (fun b => cs.contains b)).reverse

/-! ## netproto.py : network response parsers -/

namespace netproto

def NETPROTO_VERSION : Nat := 1

def NETWORK_DEVICE_ID : Nat := 0xFD

def _check_version (payload : List Nat) (off : Nat) : Except String Nat :=
  match read_u8 payload off with
  | .error e => .error e
  | .ok (ver, off2) =>
    if ver ≠ NETPROTO_VERSION then .error "bad version" else .ok off2

structure OpenResp where
  accepted : Bool
  needs_body_write : Bool
  handle : Nat
  deriving DecidableEq, Repr

def parse_open_resp (payload : List Nat) : Except String OpenResp :=
  match _check_version payload 0 with
  | .error e => .error e
  | .ok off =>
    match read_u8 payload off with
    | .error e => .error e
    | .ok (flags, off) =>
      match read_u16le payload off with
      | .error e => .error e
      | .ok (_reserved, off) =>
        match read_u16le payload off with
        | .error e => .error e
        | .ok (handle, off) =>
          if off ≠ payload.length then .error "trailing bytes in open response"
          else .ok { accepted := flags &&& 0x01 != 0,
                     needs_body_write := flags &&& 0x02 != 0,
                     handle := handle }

structure InfoResp where
  headers_included : Bool
  has_content_length : Bool
  has_http_status : Bool
  handle : Nat
  http_status : Option Nat
  content_length : Option Nat
  header_bytes : List Nat
  deriving DecidableEq, Repr

def parse_info_resp (payload : List Nat) : Except String InfoResp :=
  match _check_version payload 0 with
  | .error e => .error e
  | .ok off =>
    match read_u8 payload off with
    | .error e => .error e
    | .ok (flags, off) =>
      match read_u16le payload off with
      | .error e => .error e
      | .ok (_reserved, off) =>
        match read_u16le payload off with
        | .error e => .error e
        | .ok (handle, off) =>
          match read_u16le payload off with
          | .error e => .error e
          | .ok (http_status, off) =>
            match read_u64le payload off with
            | .error e => .error e
            | .ok (content_length, off) =>
              match read_u16le payload off with
              | .error e => .error e
              | .ok (hdr_len, off) =>
                if payload.length < off + hdr_len then
                  .error "header bytes out of bounds"
                else
                  let hdr := (payload.drop off).take hdr_len
                  let off := off + hdr_len
                  if off ≠ payload.length then
                    .error "trailing bytes in info response"
                  else
                    let has_len := flags &&& 0x02 != 0
                    let has_status := flags &&& 0x04 != 0
                    .ok { headers_included := flags &&& 0x01 != 0,
                          has_content_length := has_len,
                          has_http_status := has_status,
                          handle := handle,
                          http_status := if has_status then some http_status else none,
                          content_length := if has_len then some content_length else none,
                          header_bytes := hdr }

structure WriteResp where
  handle : Nat
  offset : Nat
  written : Nat
  deriving DecidableEq, Repr

def parse_write_resp (payload : List Nat) : Except String WriteResp :=
  match _check_version payload 0 with
  | .error e => .error e
  | .ok off =>
    match read_u8 payload off with
    | .error e => .error e
    | .ok (_flags, off) =>
      match read_u16le payload off with
      | .error e => .error e
      | .ok (_reserved, off) =>
        match read_u16le payload off with
        | .error e => .error e
        | .ok (handle, off) =>
          match read_u32le payload off with
          | .error e => .error e
          | .ok (offset, off) =>
            match read_u16le payload off with
            | .error e => .error e
            | .ok (written, off) =>
              if off ≠ payload.length then .error "trailing bytes in write response"
              else .ok { handle := handle, offset := offset, written := written }

structure ReadResp where
  eof : Bool
  truncated : Bool
  handle : Nat
  offset : Nat
  data : List Nat
  deriving DecidableEq, Repr

def parse_read_resp (payload : List Nat) : Except String ReadResp :=
  match _check_version payload 0 with
  | .error e => .error e
  | .ok off =>
    match read_u8 payload off with
    | .error e => .error e
    | .ok (flags, off) =>
      match read_u16le payload off with
      | .error e => .error e
      | .ok (_reserved, off) =>
        match read_u16le payload off with
        | .error e => .error e
        | .ok (handle, off) =>
          match read_u32le payload off with
          | .error e => .error e
          | .ok (offset, off) =>
            match read_u16le payload off with
            | .error e => .error e
            | .ok (data_len, off) =>
              if payload.length < off + data_len then .error "read data out of bounds"
              else
                let data := (payload.drop off).take data_len
                let off := off + data_len
                if off ≠ payload.length then .error "trailing bytes in read response"
                else .ok { eof := flags &&& 0x01 != 0,
                           truncated := flags &&& 0x02 != 0,
                           handle := handle, offset := offset, data := data }

end netproto

/-! ## fileproto.py : file response parsers -/

namespace fileproto

def FILEPROTO_VERSION : Nat := 1

structure StatResult where
  exists_ : Bool
  is_dir : Bool
  size_bytes : Nat
  mtime_unix : Nat
  deriving DecidableEq, Repr

def parse_stat (payload : List Nat) : Except String StatResult :=
  if payload.length < 1 + 1 + 2 + 8 + 8 then .error "stat response too short"
  else
    let ver := payload.getD 0 0
    let flags := payload.getD 1 0
    if ver ≠ FILEPROTO_VERSION then .error "bad version"
    else .ok { exists_ := flags &&& 0x02 != 0, is_dir := flags &&& 0x01 != 0,
               size_bytes := readLE payload 4 8, mtime_unix := readLE payload 12 8 }

structure DirEntry where
  name : List Nat
  is_dir : Bool
  size_bytes : Nat
  mtime_unix : Nat
  deriving DecidableEq, Repr

structure ListDirResult where
  more : Bool
  entries : List DirEntry
  deriving DecidableEq, Repr

/-- The `for _ in range(count)` entry loop of `parse_listdir`. -/
def listdirEntries (payload : List Nat) : Nat → Nat → Except String (List DirEntry × Nat)
  | 0, off => .ok ([], off)
  | count + 1, off =>
    if payload.length < off + 2 then .error "truncated entry header"
    else
      let eflags := payload.getD off 0
      let name_len := payload.getD (off + 1) 0
      let off1 := off + 2
      if payload.length < off1 + name_len + 8 + 8 then .error "truncated entry body"
      else
        let name_b := (payload.drop off1).take name_len
        let off2 := off1 + name_len
        let size := readLE payload off2 8
        let mtime := readLE payload (off2 + 8) 8
        match listdirEntries payload count (off2 + 16) with
        | .error e => .error e
        | .ok (es, off3) =>
          .ok ({ name := name_b, is_dir := eflags &&& 0x01 != 0,
                 size_bytes := size, mtime_unix := mtime } :: es, off3)

def parse_listdir (payload : List Nat) : Except String ListDirResult :=
  if payload.length < 1 + 1 + 2 + 2 then .error "listdir response too short"
  else
    let ver := payload.getD 0 0
    let flags := payload.getD 1 0
    let count := payload.getD 4 0 ||| (payload.getD 5 0) <<< 8
    if ver ≠ FILEPROTO_VERSION then .error "bad version"
    else
      match listdirEntries payload count 6 with
      | .error e => .error e
      | .ok (entries, _off) =>
        .ok { more := flags &&& 0x01 != 0, entries := entries }

structure ReadResult where
  offset : Nat
  eof : Bool
  truncated : Bool
  data : List Nat
  deriving DecidableEq, Repr

def parse_read (payload : List Nat) : Except String ReadResult :=
  if payload.length < 1 + 1 + 2 + 4 + 2 then .error "read response too short"
  else
    let ver := payload.getD 0 0
    let flags := payload.getD 1 0
    if ver ≠ FILEPROTO_VERSION then .error "bad version"
    else
      let offset := readLE payload 4 4
      let data_len := readLE payload 8 2
      let data := (payload.drop 10).take data_len
      if data.length ≠ data_len then .error "truncated read data"
      else .ok { offset := offset, eof := flags &&& 0x01 != 0,
                 truncated := flags &&& 0x02 != 0, data := data }

structure WriteResult where
  offset : Nat
  written_len : Nat
  deriving DecidableEq, Repr

def parse_write (payload : List Nat) : Except String WriteResult :=
  if payload.length < 1 + 1 + 2 + 4 + 2 then .error "write response too short"
  else
    let ver := payload.getD 0 0
    if ver ≠ FILEPROTO_VERSION then .error "bad version"
    else .ok { offset := readLE payload 4 4, written_len := readLE payload 8 2 }

end fileproto

/-! ## clock.py : clock response parsers

UTF-8 string decoding is kept as raw bytes (latin-1/UTF-8 text handling
does not affect the parsed structure). -/

namespace clock

def CLOCKPROTO_VERSION : Nat := 1

def _parse_clock_time_resp (payload : List Nat) : Except String Nat :=
  if payload.length < 1 + 1 + 2 + 8 then .error "clock response too short"
  else
    let ver := payload.getD 0 0
    if ver ≠ CLOCKPROTO_VERSION then .error "clock version mismatch"
    else
      match read_u64le payload 4 with
      | .error e => .error e
      | .ok (ts, _) => .ok ts

def _parse_clock_format_resp (payload : List Nat) : Except String (Nat × List Nat) :=
  if payload.length < 2 then .error "clock format response too short"
  else
    let ver := payload.getD 0 0
    if ver ≠ CLOCKPROTO_VERSION then .error "clock version mismatch"
    else .ok (payload.getD 1 0, payload.drop 2)

def _parse_clock_timezone_resp (payload : List Nat) : Except String (List Nat) :=
  if payload.length < 2 then .error "clock timezone response too short"
  else
    let ver := payload.getD 0 0
    if ver ≠ CLOCKPROTO_VERSION then .error "clock version mismatch"
    else
      let tz_len := payload.getD 1 0
      if payload.length < 2 + tz_len then .error "clock timezone response truncated"
      else .ok (rstripSet ((payload.drop 2).take tz_len) [0])

end clock

/-- True exactly when an `Except String` parser rejected its input. -/
def isErr {α : Type} : Except String α → Bool
  | .error _ => true
  | .ok _ => false

example : isErr (netproto.parse_open_resp [2, 1, 0, 0, 7, 0]) = true := by decide

example : netproto.parse_open_resp [1, 1, 0, 0, 7, 0] =
    .ok ⟨true, false, 7⟩ := by rfl

example : netproto.parse_read_resp [1, 1, 0, 0, 7, 0, 5, 0, 0, 0, 2, 0, 65, 66] =
    .ok ⟨true, false, 7, 5, [65, 66]⟩ := by rfl

example : isErr (fileproto.parse_stat [2]) = true := by decide

example : isErr (clock._parse_clock_timezone_resp [2, 0]) = true := by decide


/-! ## net.py / net_tcp.py : packet status helpers -/

/-- Model of `common.status_ok`: a packet is Ok when it carries params and
`params[0] == 0`. -/
def status_ok (pkt : Option FujiPacket) : Bool :=
  match pkt with
  | none => false
  | some p =>
    match p.params with
    | [] => false
    | v :: _ => v == 0

/-- Model of `_pkt_status_code` (identical in net.py and net_tcp.py): `params[0]`
of the packet, or `-1` when there is no packet or no params. -/
def _pkt_status_code (pkt : Option FujiPacket) : Int :=
  match pkt with
  | none => -1
  | some p =>
    match p.params with
    | [] => -1
    | v :: _ => (v : Int)

/-! ## net.py / net_tcp.py : per-command retry helpers

The wall-clock deadline and the `time.sleep(backoff)` calls are
abstracted away (the helpers are modelled as if the overall deadline is
never hit); the attempt counter against the caller-supplied `retries`
cap is modelled exactly.  `resp attempt` is the outcome of
`send_command_expect` on that attempt.  The loops recurse on
`rem = retries - attempt`, the number of attempts still allowed before
the `attempt >= retries` cap. -/

/-- One step of the backoff recurrence shared by both helpers:
`backoff = min(backoff_max, backoff * 1.5)` with `backoff_max = 0.05`. -/
def backoffNext (b : ℚ) : ℚ := min (1/20 : ℚ) (b * (3/2))

namespace net

/-- Body of `net.py _send_retry_not_ready`: retry while the response is
`None` or has status `NotReady` (4); any other status returns at once;
at the attempt cap the last outcome is returned as-is. -/
def srnrGo (resp : Nat → Option FujiPacket) (attempt : Nat) : Nat → Option FujiPacket
  | 0 =>
    match resp attempt with
    | none => none
    | some p => some p
  | rem + 1 =>
    match resp attempt with
    | none => srnrGo resp (attempt + 1) rem
    | some p =>
      if _pkt_status_code (some p) ≠ 4 then some p
      else srnrGo resp (attempt + 1) rem

def _send_retry_not_ready (resp : Nat → Option FujiPacket) (retries : Nat) :
    Option FujiPacket :=
  srnrGo resp 1 (retries - 1)

end net

namespace net_tcp

/-- Body of `net_tcp.py _send_retry`: retry while the response is `None`
or has status `DeviceBusy` (3) or `NotReady` (4); any other status
returns at once; at the attempt cap the last outcome is returned
as-is. -/
def tcpRetryGo (resp : Nat → Option FujiPacket) (attempt : Nat) : Nat → Option FujiPacket
  | 0 =>
    match resp attempt with
    | none => none
    | some p => some p
  | rem + 1 =>
    match resp attempt with
    | none => tcpRetryGo resp (attempt + 1) rem
    | some p =>
      let sc := _pkt_status_code (some p)
      if sc ≠ 3 ∧ sc ≠ 4 then some p
      else tcpRetryGo resp (attempt + 1) rem

def _send_retry (resp : Nat → Option FujiPacket) (retries : Nat) :
    Option FujiPacket :=
  tcpRetryGo resp 1 (retries - 1)

end net_tcp

/-! ## net.py / net_tcp.py : streaming read / write loops

Each loop iteration is driven by the outcome of its retry helper plus
payload parse; the model takes the per-iteration outcomes as a list:
`noResp` (helper returned `None`), `badStatus code` (`status_ok` was
false, `code` the device status), or `parsed r` (Ok status, payload
parsed as `r`). -/

inductive AttemptOutcome (α : Type) where
  | noResp
  | badStatus (code : Int)
  | parsed (r : α)
  deriving DecidableEq, Repr

/-- Result of a CLI streaming loop: early `return` with an exit code,
normal loop exit carrying the final offset, or the supplied outcome
list was exhausted while the loop would have continued. -/
inductive LoopResult where
  | exitCode (c : Nat)
  | finished (offset : Nat)
  | outOfInput
  deriving DecidableEq, Repr

namespace net

/-- The `cmd_net_get` READ loop (also the shape of the `cmd_net_send`
response-read loop): no response exits 2; a non-Ok status exits 1; an
offset-echo mismatch exits 1; otherwise the offset advances by the data
length and the loop ends at `eof`. -/
def netGetReadLoop (offset : Nat) :
    List (AttemptOutcome netproto.ReadResp) → LoopResult
  | [] => .outOfInput
  | o :: rest =>
    match o with
    | .noResp => .exitCode 2
    | .badStatus _ => .exitCode 1
    | .parsed rr =>
      if rr.offset ≠ offset then .exitCode 1
      else
        let offset1 := offset + rr.data.length
        if rr.eof then .finished offset1
        else netGetReadLoop offset1 rest

/-- The `cmd_net_send` body-upload WRITE loop: runs while
`offset < len(data)`; no response exits 2; a non-Ok status exits 1;
`written == 0` exits 1; otherwise the offset advances by `written`.
The echoed `wr.offset` is never examined. -/
def netSendWriteLoop (dataLen : Nat) :
    Nat → List (AttemptOutcome netproto.WriteResp) → LoopResult
  | offset, [] => if dataLen ≤ offset then .finished offset else .outOfInput
  | offset, o :: rest =>
    if dataLen ≤ offset then .finished offset
    else
      match o with
      | .noResp => .exitCode 2
      | .badStatus _ => .exitCode 1
      | .parsed wr =>
        if wr.written = 0 then .exitCode 1
        else netSendWriteLoop dataLen (offset + wr.written) rest

end net

namespace net_tcp

/-- Result of a raising TCP loop: a raised `RuntimeError` message,
normal completion with the advanced cursor, or outcome list exhausted
mid-loop. -/
inductive TcpLoopResult where
  | err (msg : String)
  | done (total : Nat)
  | outOfInput
  deriving DecidableEq, Repr

/-- Model of `net_tcp.tcp_send_all`: write chunks while `total < len(data)`,
raising on no response, bad status, or `written <= 0`, advancing
`write_offset`/`total` by `written`.  The echoed `wr.offset` is never
examined. -/
def tcp_send_all (dataLen : Nat) :
    Nat → List (AttemptOutcome netproto.WriteResp) → TcpLoopResult
  | total, [] => if dataLen ≤ total then .done total else .outOfInput
  | total, o :: rest =>
    if dataLen ≤ total then .done total
    else
      match o with
      | .noResp => .err "No response to Write"
      | .badStatus _ => .err "Write failed"
      | .parsed wr =>
        if wr.written = 0 then .err "Write returned 0 bytes written"
        else tcp_send_all dataLen (total + wr.written) rest

/-- Model of `net_tcp.tcp_recv_some`: a single Read; `None` raises; a NotReady
status returns no data without advancing; any other non-Ok status
raises; an offset-echo mismatch raises; otherwise returns the data, the
eof flag and the advanced read cursor. -/
def tcp_recv_some (read_offset : Nat) (o : AttemptOutcome netproto.ReadResp) :
    Except String (List Nat × Bool × Nat) :=
  match o with
  | .noResp => .error "No response to Read"
  | .badStatus code =>
    if code = 4 then .ok ([], false, read_offset)
    else .error "Read failed"
  | .parsed rr =>
    if rr.offset ≠ read_offset then .error "Offset echo mismatch"
    else .ok (rr.data, rr.eof, read_offset + rr.data.length)

end net_tcp

/-! ## bbc_dfs.py : Acorn DFS 0.90 catalogue parser

Latin-1 decoded text is kept as raw bytes (latin-1 is the identity on
byte values).  `str.strip()` strips Python whitespace, which over the
latin-1 range is the set below. -/

namespace bbc_dfs

/-- Bytes whose latin-1 character satisfies Python `str.isspace()`. -/
def isPySpace (b : Nat) : Bool :=
  [9, 10, 11, 12, 13, 28, 29, 30, 31, 32, 133, 160].contains b

/-- Python `str.strip()` on latin-1 text as bytes. -/
def stripWs (s : List Nat) : List Nat :=
  ((s.dropWhile isPySpace).reverse.dropWhile isPySpace).reverse

structure DfsDiskDescriptor where
  title : List Nat
  cycle_bcd : Nat
  file_count : Nat
  boot_option : Nat
  disc_sectors : Nat
  deriving DecidableEq, Repr

structure DfsFileEntry where
  directory : Nat
  name : List Nat
  locked : Bool
  load_addr : Nat
  exec_addr : Nat
  length : Nat
  start_sector : Nat
  deriving DecidableEq, Repr

def _decode_title (sector0 sector1 : List Nat) : List Nat :=
  let t := stripWs (rstripSet (sector0.take 8 ++ sector1.take 4) [0, 32])
  if t ≠ [] then t
  else stripWs (rstripSet (sector1.take 8) [0, 32])

def _bcd_to_int (x : Nat) : Nat :=
  ((x >>> 4) &&& 0x0F) * 10 + (x &&& 0x0F)

/-- Decode catalogue slot `i`, or `none` for an empty (all-blank-name)
slot, which the Python loop skips with `continue`. -/
def entryAt (sector0 sector1 : List Nat) (i : Nat) : Option DfsFileEntry :=
  let n0 := 8 + i * 8
  let raw_name := (sector0.drop n0).take 7
  let dir_attr := sector0.getD (n0 + 7) 0
  let name := stripWs (rstripSet (rstripSet raw_name [32]) [0])
  if name = [] then none
  else
    let d0 := dir_attr &&& 0x7F
    let directory := if d0 = 0 then 36 else d0
    let b8 := sector1.getD (n0 + 0) 0
    let b9 := sector1.getD (n0 + 1) 0
    let b10 := sector1.getD (n0 + 2) 0
    let b11 := sector1.getD (n0 + 3) 0
    let b12 := sector1.getD (n0 + 4) 0
    let b13 := sector1.getD (n0 + 5) 0
    let b14 := sector1.getD (n0 + 6) 0
    let b15 := sector1.getD (n0 + 7) 0
    some { directory := directory, name := name,
           locked := dir_attr &&& 0x80 != 0,
           load_addr := b8 ||| (b9 <<< 8) ||| (((b14 >>> 2) &&& 0x03) <<< 16),
           exec_addr := b10 ||| (b11 <<< 8) ||| (((b14 >>> 6) &&& 0x03) <<< 16),
           length := b12 ||| (b13 <<< 8) ||| (((b14 >>> 4) &&& 0x03) <<< 16),
           start_sector := b15 ||| ((b14 &&& 0x03) <<< 8) }

/-- The `for i in range(file_count)` entry loop, with the in-loop
`break` when a slot would run past byte 256 and the `continue` on
blank-name slots.  The first argument is the number of slots still to
visit. -/
def entriesLoop (sector0 sector1 : List Nat) : Nat → Nat → List DfsFileEntry
  | 0, _ => []
  | rem + 1, i =>
    if 256 < 8 + i * 8 + 8 then []
    else
      match entryAt sector0 sector1 i with
      | none => entriesLoop sector0 sector1 rem (i + 1)
      | some e => e :: entriesLoop sector0 sector1 rem (i + 1)

def parse_dfs_catalogue_090 (sector0 sector1 : List Nat) :
    Except String (DfsDiskDescriptor × List DfsFileEntry) :=
  if sector0.length ≠ 256 ∨ sector1.length ≠ 256 then
    .error "DFS catalogue sectors must be exactly 256 bytes each"
  else
    let title := _decode_title sector0 sector1
    let cycle := _bcd_to_int (sector1.getD 4 0)
    let file_off := sector1.getD 5 0
    let fc0 := file_off / 8
    let file_count := if 31 < fc0 then 31 else fc0
    let boot_option := (sector1.getD 6 0 >>> 4) &&& 0x03
    let disc_sectors := sector1.getD 7 0 ||| ((sector1.getD 6 0 &&& 0x03) <<< 8)
    let desc : DfsDiskDescriptor :=
      { title := title, cycle_bcd := cycle, file_count := file_count,
        boot_option := boot_option, disc_sectors := disc_sectors }
    .ok (desc, entriesLoop sector0 sector1 file_count 0)

end bbc_dfs

/-! ## fujibus.py : parse_fuji_packet with explicit access checking

`parse_fuji_packet_checked` is the same parser, but every Python
subscript `decoded[i]` (and the `tmp[4] = 0` store) is modelled as a
checked access that raises `IndexError` when out of bounds, exactly
where the Python runtime would.  The guards of the source
(`len(decoded) < HEADER_SIZE`, `offset >= len(decoded)`,
`offset + field_size > len(decoded)`) are kept as in the source; a
shortfall they catch is a `None` result, not an error. -/

def getE (decoded : List Nat) (i : Nat) : Except String Nat :=
  match decoded.get? i with
  | none => .error "IndexError"
  | some b => .ok b

def readLEChecked (decoded : List Nat) (offset : Nat) : Nat → Except String Nat
  | 0 => .ok 0
  | size + 1 =>
    match getE decoded offset with
    | .error e => .error e
    | .ok b =>
      match readLEChecked decoded (offset + 1) size with
      | .error e => .error e
      | .ok v => .ok (b ||| v <<< 8)

def descrChainRestChecked (decoded : List Nat) :
    Nat → Nat → Nat → Except String (Option (List Nat × Nat))
  | 0, _, _ => .ok none
  | fuel + 1, last, offset =>
    if last &&& 0x80 = 0 then .ok (some ([], offset))
    else if decoded.length ≤ offset then .ok none
    else
      match getE decoded offset with
      | .error e => .error e
      | .ok b =>
        match descrChainRestChecked decoded fuel b (offset + 1) with
        | .error e => .error e
        | .ok none => .ok none
        | .ok (some (bs, off)) => .ok (some (b :: bs, off))

def readFieldsChecked (decoded : List Nat) (size : Nat) :
    Nat → Nat → Except String (Option (List Nat × Nat))
  | 0, offset => .ok (some ([], offset))
  | count + 1, offset =>
    if decoded.length < offset + size then .ok none
    else
      match readLEChecked decoded offset size with
      | .error e => .error e
      | .ok v =>
        match readFieldsChecked decoded size count (offset + size) with
        | .error e => .error e
        | .ok none => .ok none
        | .ok (some (ps, off)) => .ok (some (v :: ps, off))

def readParamsChecked (decoded : List Nat) :
    List Nat → Nat → Except String (Option (List Nat × Nat))
  | [], offset => .ok (some ([], offset))
  | d :: ds, offset =>
    let field_desc := d &&& 0x07
    let field_count := NUM_FIELDS_TABLE.getD field_desc 0
    let field_size := FIELD_SIZE_TABLE.getD field_desc 0
    match readFieldsChecked decoded field_size field_count offset with
    | .error e => .error e
    | .ok none => .ok none
    | .ok (some (ps, off2)) =>
      match readParamsChecked decoded ds off2 with
      | .error e => .error e
      | .ok none => .ok none
      | .ok (some (qs, off3)) => .ok (some (ps ++ qs, off3))

def parse_fuji_packet_checked (decoded : List Nat) :
    Except String (Option FujiPacket) :=
  if decoded.length < HEADER_SIZE then .ok none
  else
    match getE decoded 0 with
    | .error e => .error e
    | .ok device =>
      match getE decoded 1 with
      | .error e => .error e
      | .ok command =>
        match getE decoded 2 with
        | .error e => .error e
        | .ok b2 =>
          match getE decoded 3 with
          | .error e => .error e
          | .ok b3 =>
            match getE decoded 4 with
            | .error e => .error e
            | .ok checksum =>
              match getE decoded 5 with
              | .error e => .error e
              | .ok descr =>
                let length := b2 ||| b3 <<< 8
                if length ≠ decoded.length then .ok none
                else if decoded.length ≤ 4 then .error "IndexError"
                else
                  let tmp := decoded.set 4 0
                  let computed := calc_checksum tmp
                  let checksum_ok := computed == checksum
                  match descrChainRestChecked decoded (decoded.length + 1) descr
                      HEADER_SIZE with
                  | .error e => .error e
                  | .ok none => .ok none
                  | .ok (some (bs, offset)) =>
                    match readParamsChecked decoded (descr :: bs) offset with
                    | .error e => .error e
                    | .ok none => .ok none
                    | .ok (some (params, offset2)) =>
                      .ok (some { device := device, command := command,
                                  length := length, checksum := checksum,
                                  checksum_computed := computed,
                                  checksum_ok := checksum_ok, descr := descr,
                                  params := params,
                                  payload := decoded.drop offset2 })

theorem getE_eq_getD (decoded : List Nat) (i : Nat) (h : i < decoded.length) :
    getE decoded i = .ok (decoded.getD i 0) := by
  unfold getE
  cases hq : decoded.get? i with
  | none =>
    rw [List.get?_eq_none] at hq
    omega
  | some b =>
    rw [List.get?_eq_getElem?] at hq
    rw [List.getD_eq_getElem?_getD, hq]
    rfl

theorem readLEChecked_eq (decoded : List Nat) :
    ∀ (size offset : Nat), offset + size ≤ decoded.length →
      readLEChecked decoded offset size = .ok (readLE decoded offset size) := by
  intro size
  induction size with
  | zero => intro offset h; rfl
  | succ n ih =>
    intro offset h
    rw [readLEChecked, readLE, getE_eq_getD decoded offset (by omega),
      ih (offset + 1) (by omega)]

theorem descrChainRestChecked_eq (decoded : List Nat) :
    ∀ (fuel last offset : Nat),
      descrChainRestChecked decoded fuel last offset =
        .ok (descrChainRest decoded fuel last offset) := by
  intro fuel
  induction fuel with
  | zero => intro last offset; rfl
  | succ n ih =>
    intro last offset
    rw [descrChainRestChecked, descrChainRest]
    by_cases h0 : last &&& 0x80 = 0
    · simp [h0]
    · by_cases hlen : decoded.length ≤ offset
      · simp [h0, hlen]
      · simp only [h0, hlen, if_false, if_neg, ite_false]
        rw [getE_eq_getD decoded offset (by omega)]
        dsimp only
        rw [ih]
        cases descrChainRest decoded n (decoded.getD offset 0) (offset + 1) with
        | none => rfl
        | some v => cases v with
          | mk bs off => rfl

theorem readFieldsChecked_eq (decoded : List Nat) (size : Nat) :
    ∀ (count offset : Nat),
      readFieldsChecked decoded size count offset =
        .ok (readFields decoded size count offset) := by
  intro count
  induction count with
  | zero => intro offset; rfl
  | succ n ih =>
    intro offset
    rw [readFieldsChecked, readFields]
    by_cases h : decoded.length < offset + size
    · simp [h]
    · simp only [h, ite_false, if_neg, if_false]
      rw [readLEChecked_eq decoded size offset (by omega)]
      dsimp only
      rw [ih (offset + size)]
      cases readFields decoded size n (offset + size) with
      | none => rfl
      | some v => cases v with
        | mk ps off => rfl

theorem readParamsChecked_eq (decoded : List Nat) :
    ∀ (ds : List Nat) (offset : Nat),
      readParamsChecked decoded ds offset = .ok (readParams decoded ds offset) := by
  intro ds
  induction ds with
  | nil => intro offset; rfl
  | cons d rest ih =>
    intro offset
    rw [readParamsChecked, readParams]
    rw [readFieldsChecked_eq]
    cases readFields decoded (FIELD_SIZE_TABLE.getD (d &&& 0x07) 0)
        (NUM_FIELDS_TABLE.getD (d &&& 0x07) 0) offset with
    | none => rfl
    | some v =>
      cases v with
      | mk ps off2 =>
        simp only []
        rw [ih off2]
        cases readParams decoded rest off2 with
        | none => rfl
        | some w => cases w with
          | mk qs off3 => rfl

/-! ## Helper lemmas: SLIP round-trip and framing -/

theorem slipDecodeBody_slipBody (b : List Nat) :
    slipDecodeBody (slipBody b) = b := by
  induction b with
  | nil => rfl
  | cons x rest ih =>
    by_cases h1 : x = SLIP_END
    · subst h1
      simp [slipBody, slipDecodeBody, SLIP_END, SLIP_ESCAPE, SLIP_ESC_END, SLIP_ESC_ESC, ih]
    · by_cases h2 : x = SLIP_ESCAPE
      · subst h2
        simp [slipBody, slipDecodeBody, SLIP_END, SLIP_ESCAPE, SLIP_ESC_END, SLIP_ESC_ESC, ih]
      · simp only [slipBody, if_neg h1, if_neg h2, List.singleton_append]
        cases hsb : slipBody rest with
        | nil =>
          rw [hsb] at ih
          simp only [slipDecodeBody] at ih
          subst ih
          simp [slipDecodeBody, h2]
        | cons y ys =>
          rw [hsb] at ih
          simp [slipDecodeBody, h2, ih]

theorem slip_decode_slip_encode (b : List Nat) :
    slip_decode (slip_encode b) = b := by
  rw [slip_encode, slip_decode]
  have hlast : (SLIP_END :: (slipBody b ++ [SLIP_END])).getLast? = some SLIP_END := by
    rw [← List.cons_append, List.getLast?_concat]
  rw [if_pos ⟨rfl, hlast⟩, List.dropLast_concat, slipDecodeBody_slipBody]

theorem mem_slipBody_ne_end (l : List Nat) :
    ∀ x ∈ slipBody l, (x == SLIP_END) = false := by
  induction l with
  | nil => intro x hx; cases hx
  | cons y rest ih =>
    intro x hx
    rw [slipBody] at hx
    rcases List.mem_append.mp hx with h | h
    · split_ifs at h with h1 h2
      · simp only [List.mem_cons, List.not_mem_nil, or_false] at h
        rcases h with h | h <;> (subst h; decide)
      · simp only [List.mem_cons, List.not_mem_nil, or_false] at h
        rcases h with h | h <;> (subst h; decide)
      · simp only [List.mem_cons, List.not_mem_nil, or_false] at h
        subst h
        exact beq_eq_false_iff_ne.mpr h1
    · exact ih x h

theorem findIdx?_append_first {α : Type} (p : α → Bool) :
    ∀ (l1 : List α) (a : α) (l2 : List α) (i : Nat),
      (∀ x ∈ l1, p x = false) → p a = true →
        List.findIdx? p (l1 ++ a :: l2) i = some (i + l1.length) := by
  intro l1
  induction l1 with
  | nil =>
    intro a l2 i _ hpa
    simp [List.findIdx?_cons, hpa]
  | cons x xs ih =>
    intro a l2 i h hpa
    have hx : p x = false := h x (List.mem_cons_self x xs)
    rw [List.cons_append, List.findIdx?_cons, hx]
    simp only [Bool.false_eq_true, if_false]
    rw [ih a l2 (i + 1) (fun y hy => h y (List.mem_cons_of_mem x hy)) hpa]
    congr 1
    simp
    omega

/-- Extracting from a buffer that starts with one encoded frame returns
exactly that frame and leaves the rest. -/
theorem extract_frame_of_encode_append (b tail : List Nat) :
    _extract_frame_from_rx (slip_encode b ++ tail) = (some (slip_encode b), tail) := by
  have henc : slip_encode b ++ tail =
      SLIP_END :: (slipBody b ++ ([SLIP_END] ++ tail)) := by
    rw [slip_encode]
    simp [List.append_assoc]
  rw [_extract_frame_from_rx, henc]
  have h1 : List.findIdx? (fun x => x == SLIP_END)
      (SLIP_END :: (slipBody b ++ ([SLIP_END] ++ tail))) = some 0 := by
    rw [List.findIdx?_cons]
    simp
  rw [h1]
  dsimp only
  simp only [List.drop_zero, List.drop_succ_cons]
  have h2 : List.findIdx? (fun x => x == SLIP_END)
      (slipBody b ++ ([SLIP_END] ++ tail)) = some (slipBody b).length := by
    have := findIdx?_append_first (fun x => x == SLIP_END) (slipBody b) SLIP_END tail 0
      (mem_slipBody_ne_end b) (by simp)
    simpa using this
  rw [h2]
  dsimp only
  have hlen : (SLIP_END :: (slipBody b ++ [SLIP_END])).length = (slipBody b).length + 2 := by
    simp
  have hsplit : SLIP_END :: (slipBody b ++ ([SLIP_END] ++ tail)) =
      (SLIP_END :: (slipBody b ++ [SLIP_END])) ++ tail := by
    simp
  have hdrop : List.drop ((slipBody b).length + 1) (slipBody b ++ ([SLIP_END] ++ tail)) =
      tail := by
    rw [show (slipBody b).length + 1 = (slipBody b ++ [SLIP_END]).length by simp,
      ← List.append_assoc, List.drop_left]
  rw [hsplit, List.take_left' hlen, hdrop, slip_encode]

/-- C7: feeding `encode(b1) ++ encode(b2)` to the frame extractor
returns `encode(b1)` leaving `encode(b2)` buffered, and a second call
returns `encode(b2)` leaving the buffer empty: no byte of either frame
is lost or reordered. -/
theorem framer_extracts_frames_in_order (b1 b2 : List Nat) :
    _extract_frame_from_rx (slip_encode b1 ++ slip_encode b2) =
      (some (slip_encode b1), slip_encode b2) ∧
    _extract_frame_from_rx (slip_encode b2) = (some (slip_encode b2), []) := by
  constructor
  · exact extract_frame_of_encode_append b1 (slip_encode b2)
  · have h := extract_frame_of_encode_append b2 []
    simpa using h

/-- C6: SLIP round-trip: decoding an encoded byte sequence recovers it
exactly, for every byte sequence. -/
theorem slip_roundtrip (b : List Nat) :
    slip_decode (slip_encode b) = b :=
  slip_decode_slip_encode b

/-! ## Helper lemmas: checksum characterization -/

/-- Canonical value of the running end-around-folded sum: `0` only for
an all-zero prefix, otherwise the representative of `sum mod 255` in
`1..255`. -/
def canonC2 (s : Nat) : Nat :=
  if s % 255 = 0 then (if s = 0 then 0 else 255) else s % 255

theorem canonC2_le (s : Nat) : canonC2 s ≤ 255 := by
  unfold canonC2
  split_ifs <;> omega

theorem canonC2_mod (s : Nat) : canonC2 s % 255 = s % 255 := by
  unfold canonC2
  split_ifs <;> omega

theorem canonC2_eq_zero (s : Nat) : canonC2 s = 0 ↔ s = 0 := by
  constructor
  · intro h
    by_contra hs
    unfold canonC2 at h
    split_ifs at h
    all_goals omega
  · intro h
    subst h
    rfl

theorem calc_checksum_step_canon (s b : Nat) (hb : b < 256) :
    calc_checksum_step (canonC2 s) b = canonC2 (s + b) := by
  have hc1 := canonC2_le s
  have hc2 := canonC2_mod s
  have hc3 := canonC2_eq_zero s
  rcases hc3 with ⟨hc3a, hc3b⟩
  generalize hg : canonC2 s = c at hc1 hc2 hc3a hc3b
  unfold calc_checksum_step
  rw [shiftRight8_eq_div, and_255_eq_mod, and_65535_eq_mod]
  have hlt : (c + b) / 256 + (c + b) % 256 < 65536 := by omega
  rw [Nat.mod_eq_of_lt hlt]
  unfold canonC2
  split_ifs with h1 h2 <;> omega

theorem foldl_calc_checksum_canon :
    ∀ (data : List Nat) (s : Nat), (∀ b ∈ data, b < 256) →
      data.foldl calc_checksum_step (canonC2 s) = canonC2 (s + data.sum) := by
  intro data
  induction data with
  | nil => intro s _; simp
  | cons b rest ih =>
    intro s h
    rw [List.foldl_cons,
      calc_checksum_step_canon s b (h b (List.mem_cons_self b rest)),
      ih (s + b) (fun y hy => h y (List.mem_cons_of_mem b hy))]
    rw [List.sum_cons]
    congr 1
    omega

/-- C2 (amended): `calc_checksum` computes the per-byte end-around
(ones-complement style) fold, which for byte data equals `sum mod 255`
mapped to the representative in `1..255` (with `0` exactly for the
all-zero sum) — not the single end-around fold of the plain sum. -/
theorem calc_checksum_mod255 (data : List Nat) (h : ∀ b ∈ data, b < 256) :
    calc_checksum data =
      if data.sum % 255 = 0 then (if data.sum = 0 then 0 else 255)
      else data.sum % 255 := by
  have h0 : (0 : Nat) = canonC2 0 := by rfl
  rw [calc_checksum, h0, foldl_calc_checksum_canon data 0 h, and_255_eq_mod]
  have hle := canonC2_le (0 + data.sum)
  rw [Nat.mod_eq_of_lt (by omega)]
  rw [Nat.zero_add]
  rfl

/-- C2 counterexample: on `[255, 255, 1]` the code's checksum is 1 but
the claimed single end-around fold of the plain byte sum gives 0. -/
theorem calc_checksum_single_fold_counterexample :
    calc_checksum [255, 255, 1] = 1 ∧
    ((([255, 255, 1] : List Nat).sum >>> 8) + (([255, 255, 1] : List Nat).sum &&& 0xFF))
        &&& 0xFF = 0 ∧
    (1 : Nat) ≠ 0 := by
  decide

/-- C2 witness: the amended characterization evaluated at `[255, 255, 1]`. -/
theorem calc_checksum_mod255_witness :
    calc_checksum [255, 255, 1] =
      if ([255, 255, 1] : List Nat).sum % 255 = 0
      then (if ([255, 255, 1] : List Nat).sum = 0 then 0 else 255)
      else ([255, 255, 1] : List Nat).sum % 255 :=
  calc_checksum_mod255 [255, 255, 1] (by decide)

/-! ## C1 : checksum mismatch handling in parse_fuji_packet -/

/-- C1 (amended): `parse_fuji_packet` does not reject a packet whose
checksum mismatches: every packet it returns carries
`checksum_ok = (recomputed checksum over the input with the checksum
byte zeroed == header checksum byte)`, so a mismatched but otherwise
well-formed packet is returned with `checksum_ok = false` rather than
`None`. -/
theorem parse_keeps_checksum_flag (decoded : List Nat) (pkt : FujiPacket)
    (h : parse_fuji_packet decoded = some pkt) :
    pkt.checksum_ok = (calc_checksum (decoded.set 4 0) == decoded.getD 4 0) := by
  rw [parse_fuji_packet] at h
  dsimp only at h
  by_cases h6 : decoded.length < HEADER_SIZE
  · rw [if_pos h6] at h
    exact absurd h (by simp)
  · rw [if_neg h6] at h
    by_cases hlen : (decoded.getD 2 0 ||| decoded.getD 3 0 <<< 8) ≠ decoded.length
    · rw [if_pos hlen] at h
      exact absurd h (by simp)
    · rw [if_neg hlen] at h
      cases hdc : descrChainRest decoded (decoded.length + 1) (decoded.getD 5 0)
          HEADER_SIZE with
      | none =>
        rw [hdc] at h
        exact absurd h (by simp)
      | some v =>
        obtain ⟨bs, offset⟩ := v
        rw [hdc] at h
        dsimp only at h
        cases hrp : readParams decoded (decoded.getD 5 0 :: bs) offset with
        | none =>
          rw [hrp] at h
          exact absurd h (by simp)
        | some w =>
          obtain ⟨params, offset2⟩ := w
          rw [hrp] at h
          dsimp only at h
          simp only [Option.some.injEq] at h
          rw [← h]

/-- C1 counterexample: `[0,0,6,0,5,0]` is 6 bytes long, its length
header equals its size, and its recomputed checksum (6) differs from
the header checksum byte (5), yet `parse_fuji_packet` returns a packet
(with `checksum_ok = false`) instead of `None`. -/
theorem parse_checksum_mismatch_not_rejected :
    (6 ≤ ([0, 0, 6, 0, 5, 0] : List Nat).length) ∧
    (([0, 0, 6, 0, 5, 0] : List Nat).getD 2 0 |||
        (([0, 0, 6, 0, 5, 0] : List Nat).getD 3 0) <<< 8 =
      ([0, 0, 6, 0, 5, 0] : List Nat).length) ∧
    calc_checksum (([0, 0, 6, 0, 5, 0] : List Nat).set 4 0) ≠
      ([0, 0, 6, 0, 5, 0] : List Nat).getD 4 0 ∧
    parse_fuji_packet [0, 0, 6, 0, 5, 0] ≠ none := by
  decide

/-- C1 witness: the amended statement applied to the mismatched packet
`[0,0,6,0,5,0]`. -/
theorem parse_keeps_checksum_flag_witness :
    (⟨0, 0, 6, 5, 6, false, 0, [], []⟩ : FujiPacket).checksum_ok =
      (calc_checksum (([0, 0, 6, 0, 5, 0] : List Nat).set 4 0) ==
        ([0, 0, 6, 0, 5, 0] : List Nat).getD 4 0) :=
  parse_keeps_checksum_flag [0, 0, 6, 0, 5, 0] ⟨0, 0, 6, 5, 6, false, 0, [], []⟩
    (by decide)

/-! ## C3 : build / parse round trip -/

theorem and_255_of_lt {x : Nat} (h : x < 256) : x &&& 255 = x := by
  rw [and_255_eq_mod]
  exact Nat.mod_eq_of_lt h

theorem low_or_high_shift (l : Nat) (hl : l < 65536) :
    (l &&& 255) ||| ((l >>> 8) &&& 255) <<< 8 = l := by
  rw [and_255_eq_mod, shiftRight8_eq_div, and_255_eq_mod]
  have h1 : l / 256 < 256 := by omega
  rw [Nat.mod_eq_of_lt h1]
  rw [lor_shiftLeft_eq_add (l % 256) (l / 256) (by omega)]
  have h2 : (2 : Nat) ^ 8 = 256 := by norm_num
  rw [h2]
  omega

/-- C3 (amended): parsing the SLIP-decoded output of
`build_fuji_packet` succeeds and returns a packet whose checksum
verifies and whose device, command, length, payload fields equal the
inputs, with `descr = 0` and no params — for device and command bytes,
byte payloads, and total length `6 + len(payload)` below 2^16.
(`build_fuji_packet` itself returns the SLIP-encoded frame, so the
decode step is required in between.) -/
theorem build_parse_roundtrip (device command : Nat) (payload : List Nat)
    (hd : device < 256) (hc : command < 256) (_hbytes : ∀ b ∈ payload, b < 256)
    (hl : HEADER_SIZE + payload.length < 65536) :
    ∃ pkt, parse_fuji_packet (slip_decode (build_fuji_packet device command payload)) =
        some pkt ∧
      pkt.device = device ∧ pkt.command = command ∧
      pkt.length = HEADER_SIZE + payload.length ∧ pkt.descr = 0 ∧
      pkt.params = [] ∧ pkt.payload = payload ∧ pkt.checksum_ok = true := by
  have ha0 : device &&& 255 = device := and_255_of_lt hd
  have ha1 : command &&& 255 = command := and_255_of_lt hc
  rw [HEADER_SIZE] at hl ⊢
  have hdec : slip_decode (build_fuji_packet device command payload) =
      device :: command :: ((6 + payload.length) &&& 255) ::
        (((6 + payload.length) >>> 8) &&& 255) ::
        calc_checksum (device :: command :: ((6 + payload.length) &&& 255) ::
          (((6 + payload.length) >>> 8) &&& 255) :: 0 :: 0 :: payload) :: 0 :: payload := by
    rw [build_fuji_packet]
    rw [slip_decode_slip_encode]
    simp [HEADER_SIZE, List.cons_append, List.set, ha0, ha1]
  rw [hdec]
  refine ⟨⟨device, command, 6 + payload.length,
    calc_checksum (device :: command :: ((6 + payload.length) &&& 255) ::
      (((6 + payload.length) >>> 8) &&& 255) :: 0 :: 0 :: payload),
    calc_checksum (device :: command :: ((6 + payload.length) &&& 255) ::
      (((6 + payload.length) >>> 8) &&& 255) :: 0 :: 0 :: payload),
    true, 0, [], payload⟩, ?_, rfl, rfl, rfl, rfl, rfl, rfl, rfl⟩
  rw [parse_fuji_packet]
  dsimp only
  rw [if_neg (by simp [HEADER_SIZE])]
  simp only [List.getD_cons_zero, List.getD_cons_succ]
  rw [if_neg (by
    simp only [List.length_cons]
    rw [low_or_high_shift (6 + payload.length) hl]
    omega)]
  have htmp : (device :: command :: ((6 + payload.length) &&& 255) ::
      (((6 + payload.length) >>> 8) &&& 255) ::
      calc_checksum (device :: command :: ((6 + payload.length) &&& 255) ::
        (((6 + payload.length) >>> 8) &&& 255) :: 0 :: 0 :: payload) :: 0 :: payload).set 4 0 =
      device :: command :: ((6 + payload.length) &&& 255) ::
        (((6 + payload.length) >>> 8) &&& 255) :: 0 :: 0 :: payload := by
    simp [List.set]
  rw [htmp]
  rw [descrChainRest, if_pos (by decide)]
  dsimp only
  rw [readParams]
  rw [show (0 : Nat) &&& 0x07 = 0 by decide]
  rw [show NUM_FIELDS_TABLE.getD 0 0 = 0 by decide,
    show FIELD_SIZE_TABLE.getD 0 0 = 0 by decide]
  rw [readFields]
  dsimp only
  rw [readParams]
  dsimp only
  simp only [List.nil_append, List.drop_succ_cons, List.drop_zero]
  rw [low_or_high_shift (6 + payload.length) hl]
  simp [HEADER_SIZE]

/-- C3 counterexample: `build_fuji_packet` returns the SLIP-encoded
frame, so `parse_fuji_packet` applied directly to its output fails for
the simplest input already (`parse(build(0, 0, b""))` is `None`): the
round trip only holds with `slip_decode` in between. -/
theorem parse_build_direct_fails :
    parse_fuji_packet (build_fuji_packet 0 0 []) = none ∧
    parse_fuji_packet (slip_decode (build_fuji_packet 0 0 [])) ≠ none := by
  decide

/-- C3 witness: the amended round trip evaluated at
`device = 0, command = 0, payload = b""`. -/
theorem build_parse_roundtrip_witness :
    ∃ pkt, parse_fuji_packet (slip_decode (build_fuji_packet 0 0 [])) = some pkt ∧
      pkt.device = 0 ∧ pkt.command = 0 ∧
      pkt.length = HEADER_SIZE + ([] : List Nat).length ∧ pkt.descr = 0 ∧
      pkt.params = [] ∧ pkt.payload = [] ∧ pkt.checksum_ok = true :=
  build_parse_roundtrip 0 0 [] (by decide) (by decide) (by decide) (by decide)

/-! ## C10 : totality of parse_fuji_packet -/

/-- C10: `parse_fuji_packet` is total: the variant in which every byte
access is bounds-checked (raising `IndexError` like the Python runtime
would on an out-of-range subscript) never raises on any input — every
header read, descriptor continuation byte and descriptor-described
field is guarded by a length check first — and agrees with
`parse_fuji_packet`, which returns a packet or `None`. -/
theorem parse_fuji_packet_total (decoded : List Nat) :
    parse_fuji_packet_checked decoded = Except.ok (parse_fuji_packet decoded) := by
  rw [parse_fuji_packet_checked, parse_fuji_packet]
  by_cases h6 : decoded.length < HEADER_SIZE
  · rw [if_pos h6, if_pos h6]
  · rw [if_neg h6, if_neg h6]
    rw [HEADER_SIZE] at h6
    rw [getE_eq_getD decoded 0 (by omega), getE_eq_getD decoded 1 (by omega),
      getE_eq_getD decoded 2 (by omega), getE_eq_getD decoded 3 (by omega),
      getE_eq_getD decoded 4 (by omega), getE_eq_getD decoded 5 (by omega)]
    dsimp only
    by_cases hlen : (decoded.getD 2 0 ||| decoded.getD 3 0 <<< 8) ≠ decoded.length
    · rw [if_pos hlen, if_pos hlen]
    · rw [if_neg hlen, if_neg hlen]
      rw [if_neg (by omega)]
      rw [descrChainRestChecked_eq]
      cases descrChainRest decoded (decoded.length + 1) (decoded.getD 5 0) HEADER_SIZE with
      | none => rfl
      | some v =>
        obtain ⟨bs, offset⟩ := v
        dsimp only
        rw [readParamsChecked_eq]
        cases readParams decoded (decoded.getD 5 0 :: bs) offset with
        | none => rfl
        | some w =>
          obtain ⟨params, offset2⟩ := w
          rfl

/-! ## C5 : retry helper status policy -/

theorem tcpRetryGo_transient_only_at_cap (resp : Nat → Option FujiPacket) :
    ∀ (rem attempt : Nat) (p : FujiPacket),
      net_tcp.tcpRetryGo resp attempt rem = some p →
      (_pkt_status_code (some p) = 3 ∨ _pkt_status_code (some p) = 4) →
      resp (attempt + rem) = some p := by
  intro rem
  induction rem with
  | zero =>
    intro attempt p h hst
    rw [net_tcp.tcpRetryGo] at h
    rw [Nat.add_zero]
    cases hr : resp attempt with
    | none => rw [hr] at h; exact absurd h (by simp)
    | some q => rw [hr] at h; exact h
  | succ n ih =>
    intro attempt p h hst
    rw [net_tcp.tcpRetryGo] at h
    cases hr : resp attempt with
    | none =>
      rw [hr] at h
      dsimp only at h
      rw [show attempt + (n + 1) = attempt + 1 + n by omega]
      exact ih (attempt + 1) p h hst
    | some q =>
      rw [hr] at h
      dsimp only at h
      by_cases hq : _pkt_status_code (some q) ≠ 3 ∧ _pkt_status_code (some q) ≠ 4
      · rw [if_pos hq] at h
        have hpq : q = p := by
          simpa using h
        subst hpq
        rcases hst with hst | hst
        · exact absurd hst hq.1
        · exact absurd hst hq.2
      · rw [if_neg hq] at h
        rw [show attempt + (n + 1) = attempt + 1 + n by omega]
        exact ih (attempt + 1) p h hst

theorem srnrGo_not_ready_only_at_cap (resp : Nat → Option FujiPacket) :
    ∀ (rem attempt : Nat) (p : FujiPacket),
      net.srnrGo resp attempt rem = some p →
      _pkt_status_code (some p) = 4 →
      resp (attempt + rem) = some p := by
  intro rem
  induction rem with
  | zero =>
    intro attempt p h hst
    rw [net.srnrGo] at h
    rw [Nat.add_zero]
    cases hr : resp attempt with
    | none => rw [hr] at h; exact absurd h (by simp)
    | some q => rw [hr] at h; exact h
  | succ n ih =>
    intro attempt p h hst
    rw [net.srnrGo] at h
    cases hr : resp attempt with
    | none =>
      rw [hr] at h
      dsimp only at h
      rw [show attempt + (n + 1) = attempt + 1 + n by omega]
      exact ih (attempt + 1) p h hst
    | some q =>
      rw [hr] at h
      dsimp only at h
      by_cases hq : _pkt_status_code (some q) ≠ 4
      · rw [if_pos hq] at h
        have hpq : q = p := by simpa using h
        subst hpq
        exact absurd hst hq
      · rw [if_neg hq] at h
        rw [show attempt + (n + 1) = attempt + 1 + n by omega]
        exact ih (attempt + 1) p h hst

/-- C5 (amended): in `net_tcp._send_retry` a packet with status
DeviceBusy (3) or NotReady (4) can only be the response of the final
(cap) attempt: any earlier such response is retried, a `None` response
is retried, and a packet with any other status is returned at once.
`net.py _send_retry_not_ready` retries only `None` and NotReady (4): a
DeviceBusy packet is returned immediately.  The per-step backoff update
is capped at 50 ms. -/
theorem retry_status_policy :
    (∀ (resp : Nat → Option FujiPacket) (rem attempt : Nat) (p : FujiPacket),
        net_tcp.tcpRetryGo resp attempt rem = some p →
        (_pkt_status_code (some p) = 3 ∨ _pkt_status_code (some p) = 4) →
        resp (attempt + rem) = some p) ∧
    (∀ (resp : Nat → Option FujiPacket) (rem attempt : Nat) (p : FujiPacket),
        resp attempt = some p →
        _pkt_status_code (some p) ≠ 3 → _pkt_status_code (some p) ≠ 4 →
        net_tcp.tcpRetryGo resp attempt rem = some p) ∧
    (∀ (resp : Nat → Option FujiPacket) (rem attempt : Nat),
        resp attempt = none →
        net_tcp.tcpRetryGo resp attempt (rem + 1) =
          net_tcp.tcpRetryGo resp (attempt + 1) rem) ∧
    (∀ (resp : Nat → Option FujiPacket) (rem attempt : Nat) (p : FujiPacket),
        net.srnrGo resp attempt rem = some p →
        _pkt_status_code (some p) = 4 →
        resp (attempt + rem) = some p) ∧
    (∀ (resp : Nat → Option FujiPacket) (rem attempt : Nat) (p : FujiPacket),
        resp attempt = some p → _pkt_status_code (some p) ≠ 4 →
        net.srnrGo resp attempt rem = some p) ∧
    (∀ (resp : Nat → Option FujiPacket) (rem attempt : Nat),
        resp attempt = none →
        net.srnrGo resp attempt (rem + 1) = net.srnrGo resp (attempt + 1) rem) ∧
    (∀ b : ℚ, backoffNext b ≤ 1 / 20) := by
  refine ⟨?_, ?_, ?_, ?_, ?_, ?_, ?_⟩
  · intro resp rem attempt p h hst
    exact tcpRetryGo_transient_only_at_cap resp rem attempt p h hst
  · intro resp rem attempt p h h3 h4
    cases rem with
    | zero => rw [net_tcp.tcpRetryGo, h]
    | succ n =>
      rw [net_tcp.tcpRetryGo, h]
      dsimp only
      rw [if_pos ⟨h3, h4⟩]
  · intro resp rem attempt h
    rw [net_tcp.tcpRetryGo, h]
  · intro resp rem attempt p h hst
    exact srnrGo_not_ready_only_at_cap resp rem attempt p h hst
  · intro resp rem attempt p h h4
    cases rem with
    | zero => rw [net.srnrGo, h]
    | succ n =>
      rw [net.srnrGo, h]
      dsimp only
      rw [if_pos h4]
  · intro resp rem attempt h
    rw [net.srnrGo, h]
  · intro b
    exact min_le_left _ _

/-- C5 counterexample: with a response stream whose first attempt is a
DeviceBusy (status 3) packet and every later attempt an Ok packet, and
200 attempts allowed, `net.py _send_retry_not_ready` returns the
DeviceBusy packet from attempt 1 instead of retrying, while
`net_tcp._send_retry` retries it and returns the Ok packet. -/
theorem not_ready_helper_returns_busy :
    net._send_retry_not_ready
        (fun n => if n = 1 then some ⟨0xFD, 2, 7, 0, 0, true, 1, [3], []⟩
                  else some ⟨0xFD, 2, 7, 0, 0, true, 1, [0], []⟩) 200 =
      some ⟨0xFD, 2, 7, 0, 0, true, 1, [3], []⟩ ∧
    _pkt_status_code (some ⟨0xFD, 2, 7, 0, 0, true, 1, [3], []⟩) = 3 ∧
    net_tcp._send_retry
        (fun n => if n = 1 then some ⟨0xFD, 2, 7, 0, 0, true, 1, [3], []⟩
                  else some ⟨0xFD, 2, 7, 0, 0, true, 1, [0], []⟩) 200 =
      some ⟨0xFD, 2, 7, 0, 0, true, 1, [0], []⟩ ∧
    (1 : Nat) < 200 := by
  refine ⟨?_, by decide, ?_, by decide⟩
  · rfl
  · rfl

/-- C5 witness: the policy conjuncts applied to concrete streams. -/
theorem retry_status_policy_witness :
    ((fun _ => some (⟨0xFD, 2, 7, 0, 0, true, 1, [3], []⟩ : FujiPacket)) (1 + 0) =
      some (⟨0xFD, 2, 7, 0, 0, true, 1, [3], []⟩ : FujiPacket)) ∧
    (net_tcp.tcpRetryGo (fun _ => some (⟨0xFD, 2, 7, 0, 0, true, 1, [0], []⟩ : FujiPacket))
        1 5 = some (⟨0xFD, 2, 7, 0, 0, true, 1, [0], []⟩ : FujiPacket)) ∧
    (net.srnrGo (fun _ => some (⟨0xFD, 2, 7, 0, 0, true, 1, [3], []⟩ : FujiPacket)) 1 5 =
      some (⟨0xFD, 2, 7, 0, 0, true, 1, [3], []⟩ : FujiPacket)) ∧
    backoffNext 1 ≤ 1 / 20 := by
  refine ⟨?_, ?_, ?_, ?_⟩
  · exact retry_status_policy.1 (fun _ => some ⟨0xFD, 2, 7, 0, 0, true, 1, [3], []⟩)
      0 1 ⟨0xFD, 2, 7, 0, 0, true, 1, [3], []⟩ (by rfl) (by decide)
  · exact retry_status_policy.2.1 (fun _ => some ⟨0xFD, 2, 7, 0, 0, true, 1, [0], []⟩)
      5 1 ⟨0xFD, 2, 7, 0, 0, true, 1, [0], []⟩ (by rfl) (by decide) (by decide)
  · exact retry_status_policy.2.2.2.2.1
      (fun _ => some ⟨0xFD, 2, 7, 0, 0, true, 1, [3], []⟩)
      5 1 ⟨0xFD, 2, 7, 0, 0, true, 1, [3], []⟩ (by rfl) (by decide)
  · exact retry_status_policy.2.2.2.2.2.2 1

/-! ## C4 : offset echo checking in the streaming loops -/

/-- Replace the echoed offset field of a parsed write response, leaving
everything else unchanged. -/
def mapWriteRespOffset (f : Nat → Nat) :
    AttemptOutcome netproto.WriteResp → AttemptOutcome netproto.WriteResp
  | .parsed wr => .parsed { wr with offset := f wr.offset }
  | .noResp => .noResp
  | .badStatus c => .badStatus c

theorem netSendWriteLoop_ignores_offset (f : Nat → Nat) (dataLen : Nat) :
    ∀ (rs : List (AttemptOutcome netproto.WriteResp)) (offset : Nat),
      net.netSendWriteLoop dataLen offset (rs.map (mapWriteRespOffset f)) =
        net.netSendWriteLoop dataLen offset rs := by
  intro rs
  induction rs with
  | nil => intro offset; rfl
  | cons o rest ih =>
    intro offset
    rw [List.map_cons]
    rw [net.netSendWriteLoop.eq_def, net.netSendWriteLoop.eq_def]
    dsimp only
    by_cases hle : dataLen ≤ offset
    · rw [if_pos hle, if_pos hle]
    · rw [if_neg hle, if_neg hle]
      cases o with
      | noResp => rfl
      | badStatus c => rfl
      | parsed wr =>
        dsimp only [mapWriteRespOffset]
        by_cases hw : wr.written = 0
        · rw [if_pos hw, if_pos hw]
        · rw [if_neg hw, if_neg hw]
          exact ih (offset + wr.written)

theorem tcp_send_all_ignores_offset (f : Nat → Nat) (dataLen : Nat) :
    ∀ (rs : List (AttemptOutcome netproto.WriteResp)) (total : Nat),
      net_tcp.tcp_send_all dataLen total (rs.map (mapWriteRespOffset f)) =
        net_tcp.tcp_send_all dataLen total rs := by
  intro rs
  induction rs with
  | nil => intro total; rfl
  | cons o rest ih =>
    intro total
    rw [List.map_cons]
    rw [net_tcp.tcp_send_all.eq_def, net_tcp.tcp_send_all.eq_def]
    dsimp only
    by_cases hle : dataLen ≤ total
    · rw [if_pos hle, if_pos hle]
    · rw [if_neg hle, if_neg hle]
      cases o with
      | noResp => rfl
      | badStatus c => rfl
      | parsed wr =>
        dsimp only [mapWriteRespOffset]
        by_cases hw : wr.written = 0
        · rw [if_pos hw, if_pos hw]
        · rw [if_neg hw, if_neg hw]
          exact ih (total + wr.written)

/-- C4 (amended): the streaming READ paths enforce the offset echo — a
read response whose echoed offset differs from the requested one makes
`cmd_net_get`'s loop exit with code 1 and makes `tcp_recv_some` raise —
but the body-WRITE loops (`cmd_net_send` upload, `tcp_send_all`) never
examine the echoed offset: their outcome is invariant under arbitrary
changes to it, and they fail only on missing responses, bad statuses,
or `written = 0`. -/
theorem offset_echo_policy :
    (∀ (offset : Nat) (rr : netproto.ReadResp)
        (rest : List (AttemptOutcome netproto.ReadResp)),
        rr.offset ≠ offset →
        net.netGetReadLoop offset (.parsed rr :: rest) = .exitCode 1) ∧
    (∀ (read_offset : Nat) (rr : netproto.ReadResp),
        rr.offset ≠ read_offset →
        net_tcp.tcp_recv_some read_offset (.parsed rr) =
          .error "Offset echo mismatch") ∧
    (∀ (f : Nat → Nat) (dataLen offset : Nat)
        (rs : List (AttemptOutcome netproto.WriteResp)),
        net.netSendWriteLoop dataLen offset (rs.map (mapWriteRespOffset f)) =
          net.netSendWriteLoop dataLen offset rs) ∧
    (∀ (f : Nat → Nat) (dataLen total : Nat)
        (rs : List (AttemptOutcome netproto.WriteResp)),
        net_tcp.tcp_send_all dataLen total (rs.map (mapWriteRespOffset f)) =
          net_tcp.tcp_send_all dataLen total rs) := by
  refine ⟨?_, ?_, ?_, ?_⟩
  · intro offset rr rest h
    rw [net.netGetReadLoop]
    dsimp only
    rw [if_pos h]
  · intro read_offset rr h
    rw [net_tcp.tcp_recv_some]
    rw [if_pos h]
  · intro f dataLen offset rs
    exact netSendWriteLoop_ignores_offset f dataLen rs offset
  · intro f dataLen total rs
    exact tcp_send_all_ignores_offset f dataLen rs total

/-- C4 counterexample: a 2-byte upload whose single write response
echoes offset 99 (the request had offset 0) and reports 2 bytes
written: both write loops complete successfully instead of failing,
although the echoed offset differs from the sent offset. -/
theorem write_loop_ignores_offset_echo :
    net.netSendWriteLoop 2 0 [.parsed ⟨7, 99, 2⟩] = .finished 2 ∧
    net_tcp.tcp_send_all 2 0 [.parsed ⟨7, 99, 2⟩] = .done 2 ∧
    (99 : Nat) ≠ 0 := by
  refine ⟨by rfl, by rfl, by decide⟩

/-- C4 witness: the amended policy at concrete inputs. -/
theorem offset_echo_policy_witness :
    net.netGetReadLoop 0 [.parsed ⟨false, false, 7, 5, []⟩] = .exitCode 1 ∧
    net_tcp.tcp_recv_some 0 (.parsed ⟨false, false, 7, 5, []⟩) =
      .error "Offset echo mismatch" ∧
    net.netSendWriteLoop 2 0 ([.parsed ⟨7, 0, 2⟩].map (mapWriteRespOffset (fun _ => 99))) =
      net.netSendWriteLoop 2 0 [.parsed ⟨7, 0, 2⟩] ∧
    net_tcp.tcp_send_all 2 0 ([.parsed ⟨7, 0, 2⟩].map (mapWriteRespOffset (fun _ => 99))) =
      net_tcp.tcp_send_all 2 0 [.parsed ⟨7, 0, 2⟩] := by
  refine ⟨?_, ?_, ?_, ?_⟩
  · exact offset_echo_policy.1 0 ⟨false, false, 7, 5, []⟩ [] (by decide)
  · exact offset_echo_policy.2.1 0 ⟨false, false, 7, 5, []⟩ (by decide)
  · exact offset_echo_policy.2.2.1 (fun _ => 99) 2 0 [.parsed ⟨7, 0, 2⟩]
  · exact offset_echo_policy.2.2.2 (fun _ => 99) 2 0 [.parsed ⟨7, 0, 2⟩]

/-! ## C8 : version gate in every payload parser -/

theorem check_version_err (b : Nat) (rest : List Nat) (hb : b ≠ 1) :
    netproto._check_version (b :: rest) 0 = .error "bad version" := by
  rw [netproto._check_version, read_u8]
  rw [if_neg (by simp)]
  dsimp only
  rw [if_pos (by
    simp only [List.getD_cons_zero, netproto.NETPROTO_VERSION]
    exact hb)]

/-- C8: every subdevice payload parser (network open/info/read/write,
file stat/list/read/write, clock time/format/timezone) rejects a
payload whose first byte is not 1 with a decode error rather than
returning a parsed value. -/
theorem version_gate (b : Nat) (rest : List Nat) (hb : b ≠ 1) :
    isErr (netproto.parse_open_resp (b :: rest)) = true ∧
    isErr (netproto.parse_info_resp (b :: rest)) = true ∧
    isErr (netproto.parse_write_resp (b :: rest)) = true ∧
    isErr (netproto.parse_read_resp (b :: rest)) = true ∧
    isErr (fileproto.parse_stat (b :: rest)) = true ∧
    isErr (fileproto.parse_listdir (b :: rest)) = true ∧
    isErr (fileproto.parse_read (b :: rest)) = true ∧
    isErr (fileproto.parse_write (b :: rest)) = true ∧
    isErr (clock._parse_clock_time_resp (b :: rest)) = true ∧
    isErr (clock._parse_clock_format_resp (b :: rest)) = true ∧
    isErr (clock._parse_clock_timezone_resp (b :: rest)) = true := by
  have hcv := check_version_err b rest hb
  have hver : (b :: rest).getD 0 0 ≠ 1 := by
    simp only [List.getD_cons_zero]
    exact hb
  refine ⟨?_, ?_, ?_, ?_, ?_, ?_, ?_, ?_, ?_, ?_, ?_⟩
  · rw [netproto.parse_open_resp, hcv]
    rfl
  · rw [netproto.parse_info_resp, hcv]
    rfl
  · rw [netproto.parse_write_resp, hcv]
    rfl
  · rw [netproto.parse_read_resp, hcv]
    rfl
  · rw [fileproto.parse_stat]
    by_cases hlen : (b :: rest).length < 1 + 1 + 2 + 8 + 8
    · rw [if_pos hlen]
      rfl
    · rw [if_neg hlen]
      dsimp only
      rw [if_pos (by
        simp only [fileproto.FILEPROTO_VERSION]
        exact hver)]
      rfl
  · rw [fileproto.parse_listdir]
    by_cases hlen : (b :: rest).length < 1 + 1 + 2 + 2
    · rw [if_pos hlen]
      rfl
    · rw [if_neg hlen]
      dsimp only
      rw [if_pos (by
        simp only [fileproto.FILEPROTO_VERSION]
        exact hver)]
      rfl
  · rw [fileproto.parse_read]
    by_cases hlen : (b :: rest).length < 1 + 1 + 2 + 4 + 2
    · rw [if_pos hlen]
      rfl
    · rw [if_neg hlen]
      dsimp only
      rw [if_pos (by
        simp only [fileproto.FILEPROTO_VERSION]
        exact hver)]
      rfl
  · rw [fileproto.parse_write]
    by_cases hlen : (b :: rest).length < 1 + 1 + 2 + 4 + 2
    · rw [if_pos hlen]
      rfl
    · rw [if_neg hlen]
      dsimp only
      rw [if_pos (by
        simp only [fileproto.FILEPROTO_VERSION]
        exact hver)]
      rfl
  · rw [clock._parse_clock_time_resp]
    by_cases hlen : (b :: rest).length < 1 + 1 + 2 + 8
    · rw [if_pos hlen]
      rfl
    · rw [if_neg hlen]
      dsimp only
      rw [if_pos (by
        simp only [clock.CLOCKPROTO_VERSION]
        exact hver)]
      rfl
  · rw [clock._parse_clock_format_resp]
    by_cases hlen : (b :: rest).length < 2
    · rw [if_pos hlen]
      rfl
    · rw [if_neg hlen]
      dsimp only
      rw [if_pos (by
        simp only [clock.CLOCKPROTO_VERSION]
        exact hver)]
      rfl
  · rw [clock._parse_clock_timezone_resp]
    by_cases hlen : (b :: rest).length < 2
    · rw [if_pos hlen]
      rfl
    · rw [if_neg hlen]
      dsimp only
      rw [if_pos (by
        simp only [clock.CLOCKPROTO_VERSION]
        exact hver)]
      rfl

/-- C8 witness: the version gate evaluated on the one-byte payload
`[2]`. -/
theorem version_gate_witness :
    isErr (netproto.parse_open_resp [2]) = true ∧
    isErr (netproto.parse_info_resp [2]) = true ∧
    isErr (netproto.parse_write_resp [2]) = true ∧
    isErr (netproto.parse_read_resp [2]) = true ∧
    isErr (fileproto.parse_stat [2]) = true ∧
    isErr (fileproto.parse_listdir [2]) = true ∧
    isErr (fileproto.parse_read [2]) = true ∧
    isErr (fileproto.parse_write [2]) = true ∧
    isErr (clock._parse_clock_time_resp [2]) = true ∧
    isErr (clock._parse_clock_format_resp [2]) = true ∧
    isErr (clock._parse_clock_timezone_resp [2]) = true :=
  version_gate 2 [] (by decide)

/-! ## C9 : DFS 0.90 catalogue decoding -/

theorem entriesLoop_mem (s0 s1 : List Nat) :
    ∀ (rem i : Nat) (e : bbc_dfs.DfsFileEntry),
      e ∈ bbc_dfs.entriesLoop s0 s1 rem i →
      ∃ j, i ≤ j ∧ j < i + rem ∧ bbc_dfs.entryAt s0 s1 j = some e := by
  intro rem
  induction rem with
  | zero =>
    intro i e he
    simp [bbc_dfs.entriesLoop] at he
  | succ n ih =>
    intro i e he
    rw [bbc_dfs.entriesLoop] at he
    by_cases hbrk : 256 < 8 + i * 8 + 8
    · rw [if_pos hbrk] at he
      simp at he
    · rw [if_neg hbrk] at he
      cases hea : bbc_dfs.entryAt s0 s1 i with
      | none =>
        simp only [hea] at he
        obtain ⟨j, h1, h2, h3⟩ := ih (i + 1) e he
        exact ⟨j, by omega, by omega, h3⟩
      | some e0 =>
        simp only [hea] at he
        rcases List.mem_cons.mp he with h | h
        · refine ⟨i, Nat.le_refl i, by omega, ?_⟩
          rw [hea, h]
        · obtain ⟨j, h1, h2, h3⟩ := ih (i + 1) e h
          exact ⟨j, by omega, by omega, h3⟩

theorem entryAt_fields (s0 s1 : List Nat) (i : Nat) (e : bbc_dfs.DfsFileEntry)
    (h : bbc_dfs.entryAt s0 s1 i = some e) :
    e.load_addr = s1.getD (8 + 8 * i) 0 ||| (s1.getD (9 + 8 * i) 0) <<< 8 |||
        (((s1.getD (14 + 8 * i) 0 >>> 2) &&& 0x03) <<< 16) ∧
    e.exec_addr = s1.getD (10 + 8 * i) 0 ||| (s1.getD (11 + 8 * i) 0) <<< 8 |||
        (((s1.getD (14 + 8 * i) 0 >>> 6) &&& 0x03) <<< 16) ∧
    e.length = s1.getD (12 + 8 * i) 0 ||| (s1.getD (13 + 8 * i) 0) <<< 8 |||
        (((s1.getD (14 + 8 * i) 0 >>> 4) &&& 0x03) <<< 16) ∧
    e.start_sector = s1.getD (15 + 8 * i) 0 |||
        ((s1.getD (14 + 8 * i) 0 &&& 0x03) <<< 8) := by
  rw [bbc_dfs.entryAt] at h
  dsimp only at h
  by_cases hname :
      bbc_dfs.stripWs (rstripSet (rstripSet (List.take 7 (List.drop (8 + i * 8) s0)) [32]) [0]) = []
  · rw [if_pos hname] at h
    exact absurd h (by simp)
  · rw [if_neg hname] at h
    have he := Option.some.inj h
    subst he
    refine ⟨?_, ?_, ?_, ?_⟩
    · dsimp only
      rw [show 8 + i * 8 + 0 = 8 + 8 * i by ring, show 8 + i * 8 + 1 = 9 + 8 * i by ring,
        show 8 + i * 8 + 6 = 14 + 8 * i by ring]
    · dsimp only
      rw [show 8 + i * 8 + 2 = 10 + 8 * i by ring, show 8 + i * 8 + 3 = 11 + 8 * i by ring,
        show 8 + i * 8 + 6 = 14 + 8 * i by ring]
    · dsimp only
      rw [show 8 + i * 8 + 4 = 12 + 8 * i by ring, show 8 + i * 8 + 5 = 13 + 8 * i by ring,
        show 8 + i * 8 + 6 = 14 + 8 * i by ring]
    · dsimp only
      rw [show 8 + i * 8 + 7 = 15 + 8 * i by ring, show 8 + i * 8 + 6 = 14 + 8 * i by ring]

/-- C9: the DFS 0.90 catalogue parser reports
`file_count = min(sector1[5] div 8, 31)`, and every decoded entry comes
from a catalogue slot `i < file_count` whose load address, exec
address, length and start sector are packed exactly as the claim's
formulas over `sector1[8+8i .. 15+8i]` describe. -/
theorem dfs_catalogue_decode (s0 s1 : List Nat) (d : bbc_dfs.DfsDiskDescriptor)
    (es : List bbc_dfs.DfsFileEntry)
    (h : bbc_dfs.parse_dfs_catalogue_090 s0 s1 = .ok (d, es)) :
    d.file_count = min (s1.getD 5 0 / 8) 31 ∧
    ∀ e ∈ es, ∃ i, i < d.file_count ∧
      e.load_addr = s1.getD (8 + 8 * i) 0 ||| (s1.getD (9 + 8 * i) 0) <<< 8 |||
          (((s1.getD (14 + 8 * i) 0 >>> 2) &&& 0x03) <<< 16) ∧
      e.exec_addr = s1.getD (10 + 8 * i) 0 ||| (s1.getD (11 + 8 * i) 0) <<< 8 |||
          (((s1.getD (14 + 8 * i) 0 >>> 6) &&& 0x03) <<< 16) ∧
      e.length = s1.getD (12 + 8 * i) 0 ||| (s1.getD (13 + 8 * i) 0) <<< 8 |||
          (((s1.getD (14 + 8 * i) 0 >>> 4) &&& 0x03) <<< 16) ∧
      e.start_sector = s1.getD (15 + 8 * i) 0 |||
          ((s1.getD (14 + 8 * i) 0 &&& 0x03) <<< 8) := by
  by_cases hg : s0.length ≠ 256 ∨ s1.length ≠ 256
  · rw [bbc_dfs.parse_dfs_catalogue_090, if_pos hg] at h
    exact absurd h (by simp)
  · rw [bbc_dfs.parse_dfs_catalogue_090, if_neg hg] at h
    simp only [Except.ok.injEq, Prod.mk.injEq] at h
    obtain ⟨hd, hes⟩ := h
    constructor
    · rw [← hd]
      dsimp only
      rw [Nat.min_def]
      split_ifs <;> omega
    · intro e he
      rw [← hes] at he
      obtain ⟨j, hj1, hj2, hj3⟩ := entriesLoop_mem s0 s1 _ 0 e he
      have hf := entryAt_fields s0 s1 j e hj3
      refine ⟨j, ?_, hf.1, hf.2.1, hf.2.2.1, hf.2.2.2⟩
      rw [← hd]
      dsimp only
      omega

/-- C9 witness: the catalogue theorem at a concrete pair of all-zero
256-byte sectors (an empty catalogue: `file_count = 0`, no entries). -/
theorem dfs_catalogue_decode_witness :
    (⟨[], 0, 0, 0, 0⟩ : bbc_dfs.DfsDiskDescriptor).file_count =
      min ((List.replicate 256 0).getD 5 0 / 8) 31 ∧
    ∀ e ∈ ([] : List bbc_dfs.DfsFileEntry), ∃ i,
      i < (⟨[], 0, 0, 0, 0⟩ : bbc_dfs.DfsDiskDescriptor).file_count ∧
      e.load_addr = (List.replicate 256 0).getD (8 + 8 * i) 0 |||
          ((List.replicate 256 0).getD (9 + 8 * i) 0) <<< 8 |||
          ((((List.replicate 256 0).getD (14 + 8 * i) 0 >>> 2) &&& 0x03) <<< 16) ∧
      e.exec_addr = (List.replicate 256 0).getD (10 + 8 * i) 0 |||
          ((List.replicate 256 0).getD (11 + 8 * i) 0) <<< 8 |||
          ((((List.replicate 256 0).getD (14 + 8 * i) 0 >>> 6) &&& 0x03) <<< 16) ∧
      e.length = (List.replicate 256 0).getD (12 + 8 * i) 0 |||
          ((List.replicate 256 0).getD (13 + 8 * i) 0) <<< 8 |||
          ((((List.replicate 256 0).getD (14 + 8 * i) 0 >>> 4) &&& 0x03) <<< 16) ∧
      e.start_sector = (List.replicate 256 0).getD (15 + 8 * i) 0 |||
          (((List.replicate 256 0).getD (14 + 8 * i) 0 &&& 0x03) <<< 8) :=
  dfs_catalogue_decode (List.replicate 256 0) (List.replicate 256 0)
    ⟨[], 0, 0, 0, 0⟩ [] (by rfl)
